import Mathlib

/-!
# Cloud Highway One — latency store and query/caching layer, shallow embedding

This file embeds the query/cache layer of the `cloud-highway-one` repository
(JavaScript, AWS Lambda handlers over two DynamoDB tables) into Lean and
settles the frozen claims about it.

Embedding conventions:
* JS numbers are modelled as `Rat` (the claims only copy and compare stored
  latency values; comparison of IEEE doubles agrees with comparison of the
  rationals they denote, and `JSON` round-trips of doubles are the identity).
  `NaN` is modelled by `Option.none` at the points where the code applies
  `Number(...)` to a value (`jsToNumber`); `NaN < x` is false, which the
  fold in the minimum-selection passes reflects.
* JS `undefined` for a possibly-absent string/field is `Option String`.
* A thrown (uncaught) exception is the `JsOut.crash` outcome.
* DynamoDB and the cache table are external collaborators: each handler is a
  pure function of its query parameters and an *environment* that prescribes
  the outcome of every store/cache call the handler may make; the handler
  additionally returns the list of I/O events it performed, in order.
* String routines (`toLowerCase`, single-character `split`, array `join`)
  are re-implemented for ASCII data, matching JS semantics on the ASCII
  strings this system manipulates.
-/

namespace CloudHighwayOne

/-- ASCII lower-casing of one character, as JS `toLowerCase` acts on ASCII. -/
def lowerChar (c : Char) : Char :=
  if 'A' ≤ c ∧ c ≤ 'Z' then Char.ofNat (c.toNat + 32) else c

/-- JS `String.prototype.toLowerCase`, restricted to ASCII strings. -/
def lowerStr (s : String) : String :=
  String.mk (s.data.map lowerChar)

/-- JS truthiness of a possibly-`undefined` string (`undefined` and `""` are falsy). -/
def jsTruthy : Option String → Bool
  | none => false
  | some s => !s.isEmpty

/-- Helper for `splitChar`: accumulates the current field (reversed). -/
def splitCharGo (sep : Char) : List Char → List Char → List String
  | [], acc => [String.mk acc.reverse]
  | c :: cs, acc =>
    if c = sep then String.mk acc.reverse :: splitCharGo sep cs []
    else splitCharGo sep cs (c :: acc)

/-- JS `String.prototype.split` with a single-character separator
(`"a@b".split('@') = ["a","b"]`, `"".split('@') = [""]`). -/
def splitChar (sep : Char) (s : String) : List String :=
  splitCharGo sep s.data []

/-- JS indexing `array[i]` on a string array: `undefined` past the end. -/
def jsIdx (l : List String) (i : Nat) : Option String :=
  l.get? i

/-- JS `Array.prototype.join(',')` / `Array.prototype.toString()`. -/
def joinComma : List String → String
  | [] => ""
  | [s] => s
  | s :: rest => s ++ "," ++ joinComma rest

/-- A JS value stored in the `ping` attribute of a latency row: the prober
writes either a number (`data.avg` of the TCP pings) or the string `'DOWN'`. -/
inductive PingV
  | num (q : Rat)
  | str (s : String)
deriving DecidableEq, Repr

/-- Digit run → natural number. -/
def digitsToNat (cs : List Char) : Nat :=
  cs.foldl (fun n c => 10 * n + (c.toNat - 48)) 0

/-- JS `Number(string)` on the decimal forms this system produces:
`""` is `0` (a JS quirk), `[-]digits[.digits]` is the denoted rational, and
anything else (in particular the prober's `'DOWN'` sentinel) is `NaN`,
modelled as `none`. -/
def strToNumQ (s : String) : Option Rat :=
  let core : List Char → Option Rat := fun cs =>
    match splitChar '.' (String.mk cs) with
    | [intPart] =>
      if intPart.data.all Char.isDigit then some (mkRat (digitsToNat intPart.data) 1)
      else none
    | [intPart, fracPart] =>
      if intPart.data.all Char.isDigit ∧ fracPart.data.all Char.isDigit ∧
          ¬fracPart.data.isEmpty then
        some (mkRat (digitsToNat intPart.data * 10 ^ fracPart.data.length +
          digitsToNat fracPart.data) (10 ^ fracPart.data.length))
      else none
    | _ => none
  match s.data with
  | [] => some 0
  | '-' :: rest => if rest.isEmpty then none else (core rest).map Neg.neg
  | cs => core cs

/-- JS `Number(x)` applied to a `ping` attribute; `none` stands for `NaN`. -/
def jsToNumber : PingV → Option Rat
  | .num q => some q
  | .str s => strToNumQ s

/-- JS `Number.MAX_VALUE` as an exact rational: `(2^53 - 1) * 2^971`. -/
def jsMaxValue : Rat := mkRat (((2 ^ 53 - 1) * 2 ^ 971 : Nat)) 1

/-!
## Region Catalog and validation helpers (`helpers.js`, `constants.js`)
-/

/-- Modelled from the spec: the static region catalog `regions` of
`constants.js`, a file of this repository that is not under `src/` (only its
consumers are). Contents and order follow the repository README's
"Currently Supported Cloud Providers and Regions" list (provider `aws` with
nineteen region codes) and the spec's Region Catalog component. -/
def regions : List (String × List String) :=
  [("aws",
    ["us-east-1", "us-east-2", "us-west-1", "us-west-2", "af-south-1",
     "ap-east-1", "ap-south-1", "ap-northeast-2", "ap-southeast-1",
     "ap-southeast-2", "ap-northeast-1", "ca-central-1", "eu-central-1",
     "eu-west-1", "eu-west-2", "eu-west-3", "eu-north-1", "me-south-1",
     "sa-east-1"])]

/-- Modelled from the spec: `MAX_DST_REGION_CANDIDATES` of `constants.js`
(not under `src/`); the spec and the handlers' doc comments fix it at 100. -/
def MAX_DST_REGION_CANDIDATES : Nat := 100

/-- Source `helpers.js` `validateProvider`: `Object.keys(regions).includes(provider)`. -/
def validateProvider (provider : String) : Bool :=
  (regions.map Prod.fst).contains provider

/-- Source `helpers.js` `validateRegion` on two present strings:
if the lowercased provider is valid, membership of the lowercased region in
that provider's list; otherwise false. -/
def validateRegionStr (provider region : String) : Bool :=
  if validateProvider (lowerStr provider) then
    (((regions.lookup (lowerStr provider)).getD []).contains (lowerStr region))
  else false

/-- Outcome of a JS computation that can throw: a value or an uncaught
`TypeError`-style exception. -/
inductive JsOut (α : Type) where
  | ok (a : α)
  | crash
deriving DecidableEq, Repr

/-- Source `helpers.js` `validateRegion` when the region argument may be
`undefined` (as when `validateCandidates` passes `x.split('@')[1]`):
`undefined.toLowerCase()` throws, but only after the provider check passed
(short-circuit order of the source). -/
def validateRegionOpt (provider : String) (region : Option String) : JsOut Bool :=
  if validateProvider (lowerStr provider) then
    match region with
    | some r => .ok ((((regions.lookup (lowerStr provider)).getD []).contains (lowerStr r)))
    | none => .crash
  else .ok false

/-- Source `helpers.js` `validateCandidates`: absent list is valid ("check against
all regions"); a list longer than `MAX_DST_REGION_CANDIDATES` is invalid;
otherwise every element must split on `'@'` into a valid provider/region
pair — a thrown error inside the `forEach` (e.g. a missing `'@'` making the
region `undefined`) is caught and invalidates the whole list. -/
def validateCandidates : Option (List String) → Bool
  | none => true
  | some arr =>
    if arr.length > MAX_DST_REGION_CANDIDATES then false
    else arr.all fun x =>
      match validateRegionOpt ((splitChar '@' x).headD "") (jsIdx (splitChar '@' x) 1) with
      | .ok b => b
      | .crash => false

/-!
## Cache-key derivation and region enumeration (`helpers.js`, `api.js`)
-/

/-- The `REQUEST_TYPES` enum. `===` dispatch on an unrecognized value is the
`unrecognized` constructor. `api.js`'s local copy of the enum only declares
`LatenciesFromOneRegionToMultiRegionCandidates`. -/
inductive ReqType where
  | latenciesFromOneRegionToMultiRegionCandidates
  | allData
  | unrecognized (tag : String)
deriving DecidableEq, Repr

/-- The `{src, dst}` payload of `createCacheKey`. -/
structure CacheKeyPayload where
  src : String
  dst : List String
deriving DecidableEq, Repr

/-- JS `Array.prototype.sort()` (default comparator: lexicographic by code
unit), as used on the candidate arrays. -/
def jsSort (l : List String) : List String :=
  l.mergeSort (fun a b => a ≤ b)

/-- Source `helpers.js` `createCacheKey`:
`src.toString().toLowerCase() + "+" + dst.sort().toString().toLowerCase()`
for the multi-candidate request type, the constant `"ALL_DATA"` for the
full-dump type, and `null` for any other request type. -/
def createCacheKey (requestType : ReqType) (original : CacheKeyPayload) : Option String :=
  match requestType with
  | .latenciesFromOneRegionToMultiRegionCandidates =>
    some (lowerStr original.src ++ "+" ++ lowerStr (joinComma (jsSort original.dst)))
  | .allData => some "ALL_DATA"
  | .unrecognized _ => none

/-- Source `api.js` (older, unrouted) copy of `createCacheKey`:
`` `${original.src}+${original.dst.sort()}` `` with no lowercasing, and
`null` for every request type other than the multi-candidate one. -/
def createCacheKeyApi (requestType : ReqType) (original : CacheKeyPayload) : Option String :=
  match requestType with
  | .latenciesFromOneRegionToMultiRegionCandidates =>
    some (original.src ++ "+" ++ joinComma (jsSort original.dst))
  | _ => none

/-- Every `provider@code` name of the catalog, in declaration order. -/
def allRegionNames : List String :=
  regions.flatMap fun pr => pr.2.map fun x => pr.1 ++ "@" ++ x

/-- Source `helpers.js` `generateListOfAllRegionsExceptSelf`: walks the catalog in
declaration order and pushes `` `${provider}@${x}` `` unless it equals
`region.toLowerCase()`. -/
def generateListOfAllRegionsExceptSelf (region : String) : List String :=
  regions.flatMap fun pr => pr.2.filterMap fun x =>
    let name := pr.1 ++ "@" ++ x
    if name ≠ lowerStr region then some name else none

/-- Source `api.js` (older, unrouted) copy of `generateListOfAllRegionsExceptSelf`:
it declares `let array;` without initializing it, so the first conditional
`array.push(name)` throws a `TypeError`; if no name survives the filter the
function returns the still-`undefined` variable (`.ok none`). -/
def generateListOfAllRegionsExceptSelfApi (region : String) : JsOut (Option (List String)) :=
  if (generateListOfAllRegionsExceptSelf region).isEmpty then .ok none else .crash

/-!
## Result-cache read (`helpers.js` `checkCacheAsync`)
-/

/-- A row of the `CloudHighwayOneCache` table as the read path sees it;
either attribute may be missing. -/
structure CacheItem where
  value : Option String
  ttl : Option Int
deriving DecidableEq, Repr

/-- Outcome the cache table prescribes for the single `get` the read
performs: a transport error, or a response whose `Item` may be absent. -/
inductive CacheGetResp where
  | err
  | found (item : Option CacheItem)
deriving DecidableEq, Repr

/-- JS truthiness of the `ttl` attribute (`undefined` and `0` are falsy). -/
def jsTruthyInt : Option Int → Bool
  | none => false
  | some n => n ≠ 0

/-- Source `helpers.js` `checkCacheAsync` given the table's response and the current
epoch second (`Math.floor(Date.now() / 1000)`): a transport error is caught
and returns `null`; otherwise the value is returned only when
`response.Item && response.Item.value && response.Item.ttl && response.Item.ttl > now`. -/
def checkCacheAsync (resp : CacheGetResp) (now : Int) : Option String :=
  match resp with
  | .err => none
  | .found none => none
  | .found (some item) =>
    if jsTruthy item.value ∧ jsTruthyInt item.ttl ∧ item.ttl.getD 0 > now then
      item.value
    else none

/-!
## Latency rows, the cached-dataset codec, and the minimum-selection passes
-/

/-- A `{dstRegion, ping}` row as returned by the store's query/batchGet
projections and as serialized into the result cache. -/
structure Row where
  dstRegion : String
  ping : PingV
deriving DecidableEq, Repr

/-- Consume an exact literal from the head of a character list. -/
def dropLit : List Char → List Char → Option (List Char)
  | [], cs => some cs
  | l :: ls, c :: cs => if c = l then dropLit ls cs else none
  | _ :: _, [] => none

/-- Read characters up to (and consuming) a closing double quote. -/
def takeToQuote : List Char → Option (List Char × List Char)
  | [] => none
  | '"' :: cs => some ([], cs)
  | c :: cs => (takeToQuote cs).map fun pr => (c :: pr.1, pr.2)

/-- Models `JSON.parse` restricted to the one object shape this system serializes
into the cache: `\x7b"dstRegion":"<name>","ping":<number or string>\x7d`
(the shape `JSON.stringify` produces for a `{dstRegion, ping}` row, fields
in insertion order). Anything else is a parse failure, which the callers'
`try`/`catch` turns into a cache miss. -/
def parseRowJson (s : String) : Option Row := do
  let cs ← dropLit ("\x7b\"dstRegion\":\"").data s.data
  let (name, cs) ← takeToQuote cs
  let cs ← dropLit (",\"ping\":").data cs
  let some '\x7d' := cs.getLast? | none
  match cs.dropLast with
  | [] => none
  | '"' :: vcs =>
    let some '"' := vcs.getLast? | none
    some ⟨String.mk name, .str (String.mk vcs.dropLast)⟩
  | vcs => (strToNumQ (String.mk vcs)).map fun q => ⟨String.mk name, .num q⟩

/-- Models `cachedValue.split('|').map((x) => JSON.parse(x))`; `none` when any
fragment fails to parse (the thrown error is caught by the caller). -/
def parseCachedRows (s : String) : Option (List Row) :=
  (splitChar '|' s).mapM parseRowJson

/-- One iteration of the minimum-selection loop used by
`api/getBestDstRegion.js` (all three of its paths) and by the query path of
`api.js`: skip the self-pair, then update on a strict `Number(ping) < minPing`. -/
def minStepFiltered (srcRegionName : String) (st : Rat × Option String) (row : Row) :
    Rat × Option String :=
  match jsToNumber row.ping with
  | some q => if row.dstRegion ≠ srcRegionName ∧ q < st.1 then (q, some row.dstRegion) else st
  | none => st

/-- The minimum-selection pass with the self-pair filter, folding
`minStepFiltered` from `(Number.MAX_VALUE, null)` or a carried state. -/
def minPassFiltered (srcRegionName : String) (st : Rat × Option String) (rows : List Row) :
    Rat × Option String :=
  rows.foldl (minStepFiltered srcRegionName) st

/-- One iteration of the minimum-selection loop of `api.js`'s cache-hit and
batchGet paths, which have no self-pair filter. -/
def minStepUnfiltered (st : Rat × Option String) (row : Row) : Rat × Option String :=
  match jsToNumber row.ping with
  | some q => if q < st.1 then (q, some row.dstRegion) else st
  | none => st

/-- The minimum-selection pass without the self-pair filter (`api.js`
cache-hit and batchGet paths). -/
def minPassUnfiltered (st : Rat × Option String) (rows : List Row) : Rat × Option String :=
  rows.foldl minStepUnfiltered st

/-- An output row of All Destinations From Source:
`{dstProvider, dstRegion, ping}` where the two name parts come from JS
indexing into `split('@')` (hence possibly `undefined`). -/
structure OutRow where
  dstProvider : Option String
  dstRegion : Option String
  ping : PingV
deriving DecidableEq, Repr

/-- Source `api/getAllDstRegion.js` cache-hit loop: filter out the self-pair and
map each parsed row to `{dstProvider: split('@')[0], dstRegion: split('@')[1], ping}`. -/
def allDstCacheShape (srcRegionName : String) (rows : List Row) : List OutRow :=
  rows.filterMap fun o =>
    if o.dstRegion ≠ srcRegionName then
      some ⟨jsIdx (splitChar '@' o.dstRegion) 0, jsIdx (splitChar '@' o.dstRegion) 1, o.ping⟩
    else none

/-- Source `api/getAllDstRegion.js` store-path loop: filter out the self-pair and
push `{dstProvider: split('@')[0], dstRegion: split('@')[0], ping}` — the
source reads `[0]` for **both** name parts (line 186). -/
def allDstStoreShape (srcRegionName : String) (rows : List Row) : List OutRow :=
  rows.filterMap fun o =>
    if o.dstRegion ≠ srcRegionName then
      some ⟨jsIdx (splitChar '@' o.dstRegion) 0, jsIdx (splitChar '@' o.dstRegion) 0, o.ping⟩
    else none

/-!
## Handler plumbing: I/O events, environments, responses
-/

/-- I/O the handlers perform against the two tables, in order. Payload
values written to the cache are not recorded (no claim inspects them). -/
inductive Event where
  | cacheGet (key : String)
  | cachePut (key : String)
  | storeGet
  | storeBatchGet
  | storeQueryPage
  | storeScanPage
deriving DecidableEq, Repr

/-- One page of a paginated `query`/`scan` response: the `Items` attribute
(possibly absent) and whether `LastEvaluatedKey` was present. -/
structure PageOf (α : Type) where
  items : Option (List α)
  hasMore : Bool
deriving DecidableEq, Repr

/-- Outcome the store prescribes for one page fetch. -/
inductive PageResp (α : Type) where
  | err
  | ok (page : PageOf α)
deriving DecidableEq, Repr

/-- Outcome the store prescribes for a `batchGet`:
a transport error, or a response whose `Responses.CloudHighwayOne` may be
absent. -/
inductive BatchResp where
  | err
  | resp (rows : Option (List Row))
deriving DecidableEq, Repr

/-- Outcome the store prescribes for a point `get`: a transport error, or a
response whose `Item` may be absent; only the `ping` attribute is read. -/
inductive StoreGetResp where
  | err
  | found (item : Option PingV)
deriving DecidableEq, Repr

/-- A row of a full-table `scan` (`srcRegion`, `dstRegion`, `ping`). -/
structure ScanRow where
  srcRegion : String
  dstRegion : String
  ping : PingV
deriving DecidableEq, Repr

/-- An output row of Full Dump. -/
structure FullRow where
  srcProvider : Option String
  srcRegion : Option String
  dstProvider : Option String
  dstRegion : Option String
  ping : PingV
deriving DecidableEq, Repr

/-- HTTP response bodies the handlers build, kept structured (a body is
compared up to its JSON encoding). -/
inductive Body where
  | badRequest
  | serverError
  | textBadRequest
  | textServerError
  | pingNum (p : PingV)
  | pingObj (p : PingV)
  | bestObj (dstProvider : Option String) (dstRegion : Option String) (ping : Rat)
  | bestName (region : String)
  | allDstData (rows : List OutRow)
  | allDataRaw (s : String)
  | allDataRows (rows : List FullRow)
deriving DecidableEq, Repr

/-- An HTTP response. -/
structure Response where
  statusCode : Nat
  body : Body
deriving DecidableEq, Repr

/-!
## Point Latency (`api/getLatency.js` and the older `api.js` copy)
-/

/-- The four query-string parameters of Point Latency. -/
structure PointParams where
  srcProvider : Option String
  srcRegion : Option String
  dstProvider : Option String
  dstRegion : Option String
deriving DecidableEq, Repr

/-- The validation guard of `api/getLatency.js` `interRegionalLatency`:
all four parameters truthy, and both pairs valid per `validateRegion`. -/
def pointGuardOk (p : PointParams) : Bool :=
  jsTruthy p.srcProvider && jsTruthy p.srcRegion &&
  jsTruthy p.dstProvider && jsTruthy p.dstRegion &&
  validateRegionStr (p.srcProvider.getD "") (p.srcRegion.getD "") &&
  validateRegionStr (p.dstProvider.getD "") (p.dstRegion.getD "")

/-- The validation guard of the older `api.js` `interRegionalLatency`: the
destination is checked with `validateProvider(dstProvider, dstRegion)` — the
extra region argument is ignored and the provider is not lowercased. -/
def apiPointGuardOk (p : PointParams) : Bool :=
  jsTruthy p.srcProvider && jsTruthy p.srcRegion &&
  jsTruthy p.dstProvider && jsTruthy p.dstRegion &&
  validateRegionStr (p.srcProvider.getD "") (p.srcRegion.getD "") &&
  validateProvider (p.dstProvider.getD "")

/-- Source `api/getLatency.js` `interRegionalLatency` (the routed handler): 400 on
missing event or failed validation, then one store `get`; transport error
is 500, and a response whose `Item` is absent crashes at
`response.Item.ping`. -/
def interRegionalLatency (ev : Option PointParams) (store : StoreGetResp) :
    JsOut Response × List Event :=
  match ev with
  | none => (.ok ⟨400, .badRequest⟩, [])
  | some p =>
    if ¬pointGuardOk p then (.ok ⟨400, .badRequest⟩, [])
    else
      match store with
      | .err => (.ok ⟨500, .serverError⟩, [.storeGet])
      | .found none => (.crash, [.storeGet])
      | .found (some ping) => (.ok ⟨200, .pingObj ping⟩, [.storeGet])

/-- The older `api.js` copy of `interRegionalLatency` (not routed by the
deployment config): same flow with the defective destination guard and
plain-text error bodies; a 200 body is the raw `response.Item.ping`. -/
def interRegionalLatencyApi (ev : Option PointParams) (store : StoreGetResp) :
    JsOut Response × List Event :=
  match ev with
  | none => (.ok ⟨400, .textBadRequest⟩, [])
  | some p =>
    if ¬apiPointGuardOk p then (.ok ⟨400, .textBadRequest⟩, [])
    else
      match store with
      | .err => (.ok ⟨500, .textServerError⟩, [.storeGet])
      | .found none => (.crash, [.storeGet])
      | .found (some ping) => (.ok ⟨200, .pingNum ping⟩, [.storeGet])

/-!
## Best Destination (`api/getBestDstRegion.js` and the older `api.js` copy)
-/

/-- The query parameters of Best Destination: `srcProvider`, `srcRegion`
from `queryStringParameters` and the repeatable `dstCandidate` from
`multiValueQueryStringParameters`. -/
structure BestParams where
  srcProvider : Option String
  srcRegion : Option String
  dstCandidate : Option (List String)
deriving DecidableEq, Repr

/-- The validation guard shared by both Best Destination copies. -/
def bestGuardOk (p : BestParams) : Bool :=
  jsTruthy p.srcProvider && jsTruthy p.srcRegion &&
  validateRegionStr (p.srcProvider.getD "") (p.srcRegion.getD "") &&
  validateCandidates p.dstCandidate

/-- Environment for one Best Destination request: the prescribed outcomes of
the (at most one) cache `get`, the current epoch second, the (at most one)
`batchGet`, and the successive pages of the (at most one) `query` drain. -/
structure BestEnv where
  cacheResp : CacheGetResp
  now : Int
  batch : BatchResp
  queryPages : List (PageResp Row)
deriving Repr

/-- Result of a paginated drain: a transport error on some page (the handler
returns 500 and discards everything), or the final accumulated state. -/
inductive DrainOut (σ : Type) where
  | err
  | done (s : σ)
deriving DecidableEq, Repr

/-- The `do … while (lastEvaluatedKey)` query drain of both Best Destination
copies: one `query` per page, folding the (self-filtering) minimum pass over
each page's `Items` and concatenating them into `responseItemsArray`. The
environment prescribes one response per issued request; an exhausted
prescription list ends the drain. -/
def bestQueryDrain (srcRegionName : String) :
    List (PageResp Row) → (Rat × Option String) → List Row →
    DrainOut ((Rat × Option String) × List Row) × List Event
  | [], st, raw => (.done (st, raw), [])
  | .err :: _, _, _ => (.err, [.storeQueryPage])
  | .ok pg :: rest, st, raw =>
    let items := pg.items.getD []
    let st' := minPassFiltered srcRegionName st items
    let raw' := raw ++ items
    if pg.hasMore then
      let (o, evs) := bestQueryDrain srcRegionName rest st' raw'
      (o, .storeQueryPage :: evs)
    else (.done (st', raw'), [.storeQueryPage])

/-- Source `api/getBestDstRegion.js` `getBestDestinationRegionFromSourceRegion`
(the routed handler).

Flow, as in the source: 400 on missing event or failed validation; when the
candidate list is absent or longer than 5, expand absent candidates to
`generateListOfAllRegionsExceptSelf`, derive the cache key and read the
cache, and on a hit run the self-filtering minimum pass over the parsed
dataset (a parse failure resets `result` to null); when `result` is still
null, either `batchGet` the named candidates (writing the raw response to
the cache when a result was found and more than 5 candidates were named) or
fully drain a `query` (writing the raw pages to the cache when a result was
found); finally the handler unconditionally builds
`result.split('@')[0]` / `[1]` — which **crashes** when `result` is still
null — and otherwise returns 200. -/
def getBestDestinationRegionFromSourceRegion (ev : Option BestParams) (env : BestEnv) :
    JsOut Response × List Event :=
  match ev with
  | none => (.ok ⟨400, .badRequest⟩, [])
  | some p =>
    if ¬bestGuardOk p then (.ok ⟨400, .badRequest⟩, [])
    else
      let srcRegionName :=
        lowerStr (p.srcProvider.getD "") ++ "@" ++ lowerStr (p.srcRegion.getD "")
      let checkAgainstAll := p.dstCandidate.isNone
      let useCache := p.dstCandidate.isNone ∨ (p.dstCandidate.getD []).length > 5
      let dstCandidate :=
        match p.dstCandidate with
        | none => generateListOfAllRegionsExceptSelf srcRegionName
        | some l => l
      let cacheKey :=
        (createCacheKey .latenciesFromOneRegionToMultiRegionCandidates
          ⟨srcRegionName, dstCandidate.map lowerStr⟩).getD ""
      let cacheEvents := if useCache then [Event.cacheGet cacheKey] else []
      let cacheState : Option (Rat × Option String) :=
        if useCache then
          match checkCacheAsync env.cacheResp env.now with
          | some v =>
            match parseCachedRows v with
            | some rows => some (minPassFiltered srcRegionName (jsMaxValue, none) rows)
            | none => none
          | none => none
        else none
      let finish : Rat → Option String → List Event → JsOut Response × List Event :=
        fun resultPing result evs =>
          match result with
          | none => (.crash, evs)
          | some r =>
            (.ok ⟨200, .bestObj (jsIdx (splitChar '@' r) 0) (jsIdx (splitChar '@' r) 1)
              resultPing⟩, evs)
      match cacheState with
      | some (m, some r) => finish m (some r) cacheEvents
      | _ =>
        if ¬checkAgainstAll then
          match env.batch with
          | .err => (.ok ⟨500, .serverError⟩, cacheEvents ++ [.storeBatchGet])
          | .resp none => finish 0 none (cacheEvents ++ [.storeBatchGet])
          | .resp (some rows) =>
            let (m, result) := minPassFiltered srcRegionName (jsMaxValue, none) rows
            let putEvents :=
              if result.isSome ∧ dstCandidate.length > 5 then [Event.cachePut cacheKey] else []
            finish m result (cacheEvents ++ [.storeBatchGet] ++ putEvents)
        else
          match bestQueryDrain srcRegionName env.queryPages (jsMaxValue, none) [] with
          | (.err, evs) => (.ok ⟨500, .serverError⟩, cacheEvents ++ evs)
          | (.done ((m, result), _raw), evs) =>
            let putEvents := if result.isSome then [Event.cachePut cacheKey] else []
            finish m result (cacheEvents ++ evs ++ putEvents)

/-- The older `api.js` copy of `getBestDestinationRegionFromSourceRegion`
(not routed by the deployment config). Differences from the routed copy:
its cache-hit and batchGet minimum passes have **no self-pair filter**; in
the check-against-all case it calls its own copy of
`generateListOfAllRegionsExceptSelf`, which **throws** on its uninitialized
`array` variable before any I/O; a missing event is not checked (modelled as
400 for a missing parameter map); error bodies are plain text; a 200 body is
the bare region name; and a null `result` reaches a genuine 500 branch
instead of crashing. -/
def getBestDestinationRegionFromSourceRegionApi (ev : Option BestParams) (env : BestEnv) :
    JsOut Response × List Event :=
  match ev with
  | none => (.ok ⟨400, .textBadRequest⟩, [])
  | some p =>
    if ¬bestGuardOk p then (.ok ⟨400, .textBadRequest⟩, [])
    else
      let srcRegionName :=
        lowerStr (p.srcProvider.getD "") ++ "@" ++ lowerStr (p.srcRegion.getD "")
      let checkAgainstAll := p.dstCandidate.isNone
      let useCache := p.dstCandidate.isNone ∨ (p.dstCandidate.getD []).length > 5
      match p.dstCandidate, generateListOfAllRegionsExceptSelfApi srcRegionName with
      | none, .crash => (.crash, [])
      | candOpt, _ =>
        let dstCandidate :=
          match candOpt with
          | none =>
            match generateListOfAllRegionsExceptSelfApi srcRegionName with
            | .ok l => l.getD []
            | .crash => []
          | some l => l
        let cacheKey :=
          (createCacheKeyApi .latenciesFromOneRegionToMultiRegionCandidates
            ⟨srcRegionName, dstCandidate.map lowerStr⟩).getD ""
        let cacheEvents := if useCache then [Event.cacheGet cacheKey] else []
        let cacheState : Option (Rat × Option String) :=
          if useCache then
            match checkCacheAsync env.cacheResp env.now with
            | some v =>
              match parseCachedRows v with
              | some rows => some (minPassUnfiltered (jsMaxValue, none) rows)
              | none => none
            | none => none
          else none
        let finish : Option String → List Event → JsOut Response × List Event :=
          fun result evs =>
            match result with
            | none => (.ok ⟨500, .textServerError⟩, evs)
            | some r => (.ok ⟨200, .bestName r⟩, evs)
        match cacheState with
        | some (_, some r) => finish (some r) cacheEvents
        | _ =>
          if ¬checkAgainstAll then
            match env.batch with
            | .err => (.ok ⟨500, .textServerError⟩, cacheEvents ++ [.storeBatchGet])
            | .resp none => finish none (cacheEvents ++ [.storeBatchGet])
            | .resp (some rows) =>
              let (_, result) := minPassUnfiltered (jsMaxValue, none) rows
              let putEvents :=
                if result.isSome ∧ dstCandidate.length > 5 then [Event.cachePut cacheKey]
                else []
              finish result (cacheEvents ++ [.storeBatchGet] ++ putEvents)
          else
            match bestQueryDrain srcRegionName env.queryPages (jsMaxValue, none) [] with
            | (.err, evs) => (.ok ⟨500, .textServerError⟩, cacheEvents ++ evs)
            | (.done ((_, result), _raw), evs) =>
              let putEvents := if result.isSome then [Event.cachePut cacheKey] else []
              finish result (cacheEvents ++ evs ++ putEvents)

/-!
## All Destinations From Source (`api/getAllDstRegion.js`)
-/

/-- The query parameters of All Destinations From Source. -/
structure AllDstParams where
  srcProvider : Option String
  srcRegion : Option String
deriving DecidableEq, Repr

/-- The validation guard of `api/getAllDstRegion.js`. -/
def allDstGuardOk (p : AllDstParams) : Bool :=
  jsTruthy p.srcProvider && jsTruthy p.srcRegion &&
  validateRegionStr (p.srcProvider.getD "") (p.srcRegion.getD "")

/-- Environment for one All Destinations request. -/
structure AllDstEnv where
  cacheResp : CacheGetResp
  now : Int
  queryPages : List (PageResp Row)
deriving Repr

/-- The query drain of `api/getAllDstRegion.js`: per page, concatenate the
raw `Items` into `responseItemsArray` and the (self-filtered, defectively
mapped) output rows into `resultArray`. -/
def allDstQueryDrain (srcRegionName : String) :
    List (PageResp Row) → List Row → List OutRow →
    DrainOut (List Row × List OutRow) × List Event
  | [], raw, acc => (.done (raw, acc), [])
  | .err :: _, _, _ => (.err, [.storeQueryPage])
  | .ok pg :: rest, raw, acc =>
    let items := pg.items.getD []
    let raw' := raw ++ items
    let acc' := acc ++ allDstStoreShape srcRegionName items
    if pg.hasMore then
      let (o, evs) := allDstQueryDrain srcRegionName rest raw' acc'
      (o, .storeQueryPage :: evs)
    else (.done (raw', acc'), [.storeQueryPage])

/-- Source `api/getAllDstRegion.js` `getAllInterRegionalLatenciesFromSourceRegion`
(the routed handler): 400 on missing event or failed validation; always
derives the all-regions cache key and reads the cache; on a hit, the parsed
dataset is self-filtered and mapped via `allDstCacheShape` (a parse failure
degrades to the store path); on a miss, a full `query` drain builds the
output via `allDstStoreShape` (a page error is 500), the raw rows are
written back to the cache, and the result — possibly empty — is returned
with 200. -/
def getAllInterRegionalLatenciesFromSourceRegion (ev : Option AllDstParams)
    (env : AllDstEnv) : JsOut Response × List Event :=
  match ev with
  | none => (.ok ⟨400, .badRequest⟩, [])
  | some p =>
    if ¬allDstGuardOk p then (.ok ⟨400, .badRequest⟩, [])
    else
      let srcRegionName :=
        lowerStr (p.srcProvider.getD "") ++ "@" ++ lowerStr (p.srcRegion.getD "")
      let dst := generateListOfAllRegionsExceptSelf srcRegionName
      let cacheKey :=
        (createCacheKey .latenciesFromOneRegionToMultiRegionCandidates
          ⟨srcRegionName, dst.map lowerStr⟩).getD ""
      let cacheState : Option (List OutRow) :=
        match checkCacheAsync env.cacheResp env.now with
        | some v => (parseCachedRows v).map (allDstCacheShape srcRegionName)
        | none => none
      match cacheState with
      | some rows => (.ok ⟨200, .allDstData rows⟩, [.cacheGet cacheKey])
      | none =>
        match allDstQueryDrain srcRegionName env.queryPages [] [] with
        | (.err, evs) => (.ok ⟨500, .serverError⟩, [.cacheGet cacheKey] ++ evs)
        | (.done (_raw, acc), evs) =>
          (.ok ⟨200, .allDstData acc⟩, [.cacheGet cacheKey] ++ evs ++ [.cachePut cacheKey])

/-!
## Full Dump (`api/getAllData.js`)
-/

/-- The exact acknowledgement literal required by Full Dump. -/
def ackToken : String :=
  "Yes_I_Understand_This_Operation_Is_Expensive_And_I_Should_Only_Make_The_Request_When_I_Really_Need_It"

/-- The query parameters of Full Dump. -/
structure AllDataParams where
  acknowledgement : Option String
deriving DecidableEq, Repr

/-- Environment for one Full Dump request. -/
structure AllDataEnv where
  cacheResp : CacheGetResp
  now : Int
  scanPages : List (PageResp ScanRow)
deriving Repr

/-- The scan drain of `api/getAllData.js`: concatenate every page's raw
`Items`. -/
def allDataScanDrain :
    List (PageResp ScanRow) → List ScanRow → DrainOut (List ScanRow) × List Event
  | [], raw => (.done raw, [])
  | .err :: _, _ => (.err, [.storeScanPage])
  | .ok pg :: rest, raw =>
    let raw' := raw ++ pg.items.getD []
    if pg.hasMore then
      let (o, evs) := allDataScanDrain rest raw'
      (o, .storeScanPage :: evs)
    else (.done raw', [.storeScanPage])

/-- The four-field output mapping of Full Dump's store path. -/
def allDataShape (x : ScanRow) : FullRow :=
  ⟨jsIdx (splitChar '@' x.srcRegion) 0, jsIdx (splitChar '@' x.srcRegion) 1,
   jsIdx (splitChar '@' x.dstRegion) 0, jsIdx (splitChar '@' x.dstRegion) 1, x.ping⟩

/-- Source `api/getAllData.js` `getAllData` (the routed handler): 400 on a missing
event or on any acknowledgement not exactly equal to `ackToken`, **before
any I/O**; then the single global cache key is read (a hit returns the
cached string verbatim); on a miss a full `scan` drain runs (a page error is
500), the mapped result is written back to the cache and returned with 200.
(The source passes `null` as `createCacheKey`'s second argument, which the
`AllData` branch never reads; the embedding passes a dummy payload.) -/
def getAllData (ev : Option AllDataParams) (env : AllDataEnv) :
    JsOut Response × List Event :=
  match ev with
  | none => (.ok ⟨400, .textBadRequest⟩, [])
  | some p =>
    if p.acknowledgement ≠ some ackToken then (.ok ⟨400, .textBadRequest⟩, [])
    else
      let cacheKey := (createCacheKey .allData ⟨"", []⟩).getD ""
      match checkCacheAsync env.cacheResp env.now with
      | some v => (.ok ⟨200, .allDataRaw v⟩, [.cacheGet cacheKey])
      | none =>
        match allDataScanDrain env.scanPages [] with
        | (.err, evs) => (.ok ⟨500, .textServerError⟩, [.cacheGet cacheKey] ++ evs)
        | (.done raw, evs) =>
          (.ok ⟨200, .allDataRows (raw.map allDataShape)⟩,
            [.cacheGet cacheKey] ++ evs ++ [.cachePut cacheKey])

/-!
## Shared helper lemmas
-/

/-- A conditional `filterMap` whose guard looks at the mapped value is a
`filter` of the `map`. -/
theorem filterMap_guard_map {α β : Type} (f : α → β) (pr : β → Prop) [DecidablePred pr]
    (l : List α) :
    (l.filterMap fun x => if pr (f x) then some (f x) else none) =
      (l.map f).filter (fun b => decide (pr b)) := by
  induction l with
  | nil => rfl
  | cons a l ih =>
    by_cases h : pr (f a) <;>
      simp [List.filterMap_cons, List.filter_cons, h, ih]

/-- A conditional `filterMap` whose guard looks at the element itself is a
`filter` followed by a `map`. -/
theorem filterMap_guard_shape {α β : Type} (pr : α → Prop) [DecidablePred pr] (g : α → β)
    (l : List α) :
    (l.filterMap fun x => if pr x then some (g x) else none) =
      (l.filter (fun x => decide (pr x))).map g := by
  induction l with
  | nil => rfl
  | cons a l ih =>
    by_cases h : pr a <;>
      simp [List.filterMap_cons, List.filter_cons, h, ih]

/-- The `filter` of a `flatMap` distributes inside. -/
theorem filter_flatMap' {α β : Type} (l : List α) (g : α → List β) (p : β → Bool) :
    (l.flatMap g).filter p = l.flatMap fun a => (g a).filter p := by
  induction l with
  | nil => rfl
  | cons a l ih => simp [List.flatMap_cons, List.filter_append, ih]

/-- JS `Array.prototype.sort()` sends permuted inputs to the same output:
two lists with the same elements merge-sort to the same sorted list. -/
theorem jsSort_perm_eq {l₁ l₂ : List String} (h : l₁.Perm l₂) : jsSort l₁ = jsSort l₂ := by
  have s₁ := List.sorted_mergeSort' (α := String) l₁
  have s₂ := List.sorted_mergeSort' (α := String) l₂
  exact List.eq_of_perm_of_sorted
    (((List.mergeSort_perm l₁ _).trans h).trans (List.mergeSort_perm l₂ _).symm) s₁ s₂

/-- Every catalog name is already lowercase. -/
theorem allRegionNames_lower : ∀ n ∈ allRegionNames, lowerStr n = n := by decide

/-- The generator is the self-filter of the catalog enumeration. -/
theorem generate_eq_filter (r : String) :
    generateListOfAllRegionsExceptSelf r =
      allRegionNames.filter (fun n => decide (n ≠ lowerStr r)) := by
  unfold generateListOfAllRegionsExceptSelf allRegionNames
  rw [filter_flatMap']
  exact List.flatMap_congr fun pr _ =>
    filterMap_guard_map (fun x => pr.1 ++ "@" ++ x) (fun n => n ≠ lowerStr r) pr.2

/-- The self-filtering minimum pass never moves the best region *to* the
source: starting from a best that is not the source, it never returns the
source. -/
theorem minPassFiltered_ne_src (src : String) :
    ∀ (rows : List Row) (m : Rat) (b : Option String), b ≠ some src →
      (minPassFiltered src (m, b) rows).2 ≠ some src := by
  intro rows
  induction rows with
  | nil => intro m b hb; simpa [minPassFiltered] using hb
  | cons row rows ih =>
    intro m b hb
    rw [minPassFiltered, List.foldl_cons]
    rcases hnum : jsToNumber row.ping with _ | q
    · rw [show minStepFiltered src (m, b) row = (m, b) by
        simp [minStepFiltered, hnum]]
      exact ih m b hb
    · by_cases hc : row.dstRegion ≠ src ∧ q < m
      · rw [show minStepFiltered src (m, b) row = (q, some row.dstRegion) by
          simp [minStepFiltered, hnum, hc]]
        exact ih q (some row.dstRegion) (by simpa using hc.1)
      · rw [show minStepFiltered src (m, b) row = (m, b) by
          simp [minStepFiltered, hnum, hc]]
        exact ih m b hb

/-- Characterization of a successful self-filtering minimum pass: the
winner either was the starting state, or is a non-self row of the input
whose `Number(ping)` parses and is strictly below the starting minimum. -/
theorem minPassFiltered_result (src : String) :
    ∀ (rows : List Row) (m : Rat) (b : Option String) (q : Rat) (r : String),
      minPassFiltered src (m, b) rows = (q, some r) →
      (q = m ∧ b = some r) ∨
      (q < m ∧ ∃ row ∈ rows, row.dstRegion = r ∧ row.dstRegion ≠ src ∧
        jsToNumber row.ping = some q) := by
  intro rows
  induction rows with
  | nil =>
    intro m b q r h
    rw [minPassFiltered, List.foldl_nil] at h
    exact Or.inl ⟨(Prod.mk.injEq .. ▸ h).1.symm ▸ rfl, (Prod.mk.injEq .. ▸ h).2⟩
  | cons row rows ih =>
    intro m b q r h
    rw [minPassFiltered, List.foldl_cons] at h
    rcases hnum : jsToNumber row.ping with _ | p
    · rw [show minStepFiltered src (m, b) row = (m, b) by
        simp [minStepFiltered, hnum]] at h
      rcases ih m b q r h with h' | ⟨hlt, row', hmem, hrest⟩
      · exact Or.inl h'
      · exact Or.inr ⟨hlt, row', List.mem_cons_of_mem _ hmem, hrest⟩
    · by_cases hc : row.dstRegion ≠ src ∧ p < m
      · rw [show minStepFiltered src (m, b) row = (p, some row.dstRegion) by
          simp [minStepFiltered, hnum, hc]] at h
        rcases ih p (some row.dstRegion) q r h with ⟨hq, hbr⟩ | ⟨hlt, row', hmem, hrest⟩
        · exact Or.inr ⟨hq ▸ hc.2, row, List.mem_cons_self .., by
            simpa [hq, hnum] using ⟨Option.some.inj hbr, hc.1⟩⟩
        · exact Or.inr ⟨hlt.trans hc.2, row', List.mem_cons_of_mem _ hmem, hrest⟩
      · rw [show minStepFiltered src (m, b) row = (m, b) by
          simp [minStepFiltered, hnum, hc]] at h
        rcases ih m b q r h with h' | ⟨hlt, row', hmem, hrest⟩
        · exact Or.inl h'
        · exact Or.inr ⟨hlt, row', List.mem_cons_of_mem _ hmem, hrest⟩

/-!
## Claim theorems
-/

/-- C5: for every region identifier `r`, the `helpers.js` copy of
`generateListOfAllRegionsExceptSelf` returns exactly the catalog enumeration
in declaration order with the lowercased `r` filtered out — it is a pure
function of `r` and the (duplicate-free) catalog, it never contains `r`, and
it contains every other catalog pair exactly once in catalog order. The
`api.js` copy of the same function, cited by the claim, instead throws a
`TypeError` on every input: it pushes onto a declared-but-uninitialized
`array` variable. -/
theorem generateListOfAllRegionsExceptSelf_claim :
    (∀ r : String, generateListOfAllRegionsExceptSelf r =
      allRegionNames.filter (fun n => decide (n ≠ lowerStr r))) ∧
    allRegionNames.Nodup ∧
    (∀ r : String, r ∉ generateListOfAllRegionsExceptSelf r) ∧
    (∀ r : String, generateListOfAllRegionsExceptSelfApi r = .crash) := by
  refine ⟨generate_eq_filter, by decide, ?_, ?_⟩
  · intro r hr
    rw [generate_eq_filter] at hr
    have hmem := List.mem_filter.mp hr
    have hlow := allRegionNames_lower r hmem.1
    have hne : r ≠ lowerStr r := by simpa using hmem.2
    exact hne hlow.symm
  · intro r
    have hx : ∃ n ∈ allRegionNames, n ≠ lowerStr r := by
      by_cases h1 : "aws@us-east-1" = lowerStr r
      · exact ⟨"aws@us-east-2", by decide, by rw [← h1]; decide⟩
      · exact ⟨"aws@us-east-1", by decide, h1⟩
    rcases hx with ⟨n, hn, hne⟩
    have hmem : n ∈ generateListOfAllRegionsExceptSelf r := by
      rw [generate_eq_filter]
      exact List.mem_filter.mpr ⟨hn, by simpa using hne⟩
    have hnil : generateListOfAllRegionsExceptSelf r ≠ [] := List.ne_nil_of_mem hmem
    unfold generateListOfAllRegionsExceptSelfApi
    rw [if_neg]
    simpa using hnil

/-- Witness for C5 at a concrete region identifier. -/
theorem generateListOfAllRegionsExceptSelf_claim_witness :
    "aws@us-west-2" ∉ generateListOfAllRegionsExceptSelf "aws@us-west-2" :=
  generateListOfAllRegionsExceptSelf_claim.2.2.1 "aws@us-west-2"

/-- C6: `createCacheKey` (both the `helpers.js` copy and the older
`api.js` copy) produces the same key for any two candidate lists that are
permutations of each other — the candidate set is sorted before joining —
and returns `null` for every unrecognized request kind. -/
theorem createCacheKey_claim :
    (∀ (s : String) (l₁ l₂ : List String), l₁.Perm l₂ →
      createCacheKey .latenciesFromOneRegionToMultiRegionCandidates ⟨s, l₁⟩ =
        createCacheKey .latenciesFromOneRegionToMultiRegionCandidates ⟨s, l₂⟩ ∧
      createCacheKeyApi .latenciesFromOneRegionToMultiRegionCandidates ⟨s, l₁⟩ =
        createCacheKeyApi .latenciesFromOneRegionToMultiRegionCandidates ⟨s, l₂⟩) ∧
    (∀ (tag : String) (orig : CacheKeyPayload),
      createCacheKey (.unrecognized tag) orig = none ∧
      createCacheKeyApi (.unrecognized tag) orig = none) := by
  refine ⟨fun s l₁ l₂ h => ?_, fun tag orig => ⟨rfl, rfl⟩⟩
  constructor <;> simp [createCacheKey, createCacheKeyApi, jsSort_perm_eq h]

/-- Witness for C6 at a concrete permuted pair of candidate lists. -/
theorem createCacheKey_claim_witness :
    createCacheKey .latenciesFromOneRegionToMultiRegionCandidates
        ⟨"aws@us-west-2", ["aws@us-west-1", "aws@ap-east-1"]⟩ =
      createCacheKey .latenciesFromOneRegionToMultiRegionCandidates
        ⟨"aws@us-west-2", ["aws@ap-east-1", "aws@us-west-1"]⟩ :=
  (createCacheKey_claim.1 "aws@us-west-2" _ _ (by decide)).1

/-- C7: `checkCacheAsync` yields a miss (`null`) on any transport error
and on an absent entry; it returns the stored value only when an entry is
present with a `ttl` strictly greater than the current epoch second; and an
entry whose `ttl` is less than or equal to now is treated identically to an
absent one. -/
theorem checkCacheAsync_claim :
    (∀ now : Int, checkCacheAsync .err now = none) ∧
    (∀ now : Int, checkCacheAsync (.found none) now = none) ∧
    (∀ (item : CacheItem) (now : Int) (v : String),
      checkCacheAsync (.found (some item)) now = some v →
      item.value = some v ∧ ∃ t, item.ttl = some t ∧ now < t) ∧
    (∀ (item : CacheItem) (now t : Int), item.ttl = some t → t ≤ now →
      checkCacheAsync (.found (some item)) now = none) := by
  refine ⟨fun _ => rfl, fun _ => rfl, ?_, ?_⟩
  · intro item now v h
    simp only [checkCacheAsync] at h
    split at h
    · next hc =>
      refine ⟨h, ?_⟩
      rcases ht : item.ttl with _ | t
      · rw [ht] at hc; exact absurd hc.2.1 (by simp [jsTruthyInt])
      · exact ⟨t, rfl, by have := hc.2.2; rw [ht] at this; simpa using this⟩
    · exact absurd h (by simp)
  · intro item now t ht hle
    simp only [checkCacheAsync]
    rw [if_neg]
    intro hc
    rw [ht] at hc
    have := hc.2.2
    simp at this
    omega

/-- Witness for C7: an entry written with `ttl = now - 1` is a miss. -/
theorem checkCacheAsync_claim_witness :
    checkCacheAsync (.found (some ⟨some "v", some 9⟩)) 10 = none :=
  checkCacheAsync_claim.2.2.2 ⟨some "v", some 9⟩ 10 9 rfl (by decide)

/-- C9: Full Dump returns 400 and performs **zero** store and cache
operations for any request whose acknowledgement parameter is not
character-for-character equal to the exact literal token (including a
missing parameter or a missing parameter map). -/
theorem getAllData_claim :
    (∀ env : AllDataEnv, getAllData none env = (.ok ⟨400, .textBadRequest⟩, [])) ∧
    (∀ (p : AllDataParams) (env : AllDataEnv), p.acknowledgement ≠ some ackToken →
      getAllData (some p) env = (.ok ⟨400, .textBadRequest⟩, [])) := by
  refine ⟨fun env => rfl, fun p env h => ?_⟩
  simp [getAllData, h]

/-- Witness for C9: a trailing-space acknowledgement is rejected with no
I/O, even when the cache holds a fresh entry. -/
theorem getAllData_claim_witness :
    getAllData (some ⟨some (ackToken ++ " ")⟩)
        ⟨.found (some ⟨some "STUFF", some 10⟩), 0, []⟩ =
      (.ok ⟨400, .textBadRequest⟩, []) :=
  getAllData_claim.2 ⟨some (ackToken ++ " ")⟩ _ (by decide)

set_option maxRecDepth 16000

/-- C10: in the self-filtering minimum-selection pass shared by the
cache-hit, batchGet and paginated-query paths of the routed Best Destination
handler, a row whose `ping` does not parse as a number — in particular the
prober's `'DOWN'` sentinel — is never selected: whenever the pass starting
from `(Number.MAX_VALUE, null)` returns a region, the accompanying ping is
strictly below `Number.MAX_VALUE` and is the parsed numeric ping of a row of
the input. -/
theorem bestDstMinPass_claim :
    jsToNumber (.str "DOWN") = none ∧
    (∀ (src : String) (rows : List Row) (q : Rat) (r : String),
      minPassFiltered src (jsMaxValue, none) rows = (q, some r) →
      q < jsMaxValue ∧ ∃ row ∈ rows, row.dstRegion = r ∧ jsToNumber row.ping = some q) := by
  refine ⟨rfl, fun src rows q r h => ?_⟩
  rcases minPassFiltered_result src rows jsMaxValue none q r h with
    ⟨_, hb⟩ | ⟨hlt, row, hmem, hr, _, hnum⟩
  · exact absurd hb (by simp)
  · exact ⟨hlt, row, hmem, hr, hnum⟩

/-- Witness for C10 on a dataset containing a `'DOWN'` row. -/
theorem bestDstMinPass_claim_witness :
    (45 : Rat) < jsMaxValue ∧
    ∃ row ∈ [(⟨"aws@ap-east-1", .str "DOWN"⟩ : Row), ⟨"aws@us-west-1", .num 45⟩],
      row.dstRegion = "aws@us-west-1" ∧ jsToNumber row.ping = some 45 :=
  bestDstMinPass_claim.2 "aws@us-west-2" _ 45 "aws@us-west-1" (by decide)

/-- The request of C1: a valid source region. -/
def c1Params : AllDstParams := ⟨some "aws", some "us-west-2"⟩

/-- The `'|'`-joined serialization of the one-row dataset
`R = [{dstRegion: "aws@us-west-1", ping: 45}]`. -/
def c1CachedValue : String := "\x7b\"dstRegion\":\"aws@us-west-1\",\"ping\":45\x7d"

/-- Environment of C1's cache-hit run: a fresh cache entry holding the
serialization of `R`. -/
def c1HitEnv : AllDstEnv := ⟨.found (some ⟨some c1CachedValue, some 10⟩), 0, []⟩

/-- Environment of C1's store run: a cache miss, then a single query page
returning exactly `R`. -/
def c1MissEnv : AllDstEnv := ⟨.found none, 0, [.ok ⟨some [⟨"aws@us-west-1", .num 45⟩], false⟩]⟩

/-- C1 (refuted — code bug): the cache-hit path and the store path of
All Destinations From Source are **not** observationally equivalent: for the
dataset `R = [{dstRegion: "aws@us-west-1", ping: 45}]`, parsing `R`'s
serialization from the cache yields `dstRegion = "us-west-1"`, while reading
the same rows from the store yields `dstRegion = "aws"` — the store path of
`getAllDstRegion.js` (line 186) maps the output `dstRegion` from
`split('@')[0]`, the provider, instead of `split('@')[1]`. -/
theorem getAllDst_paths_divergence_claim :
    (getAllInterRegionalLatenciesFromSourceRegion (some c1Params) c1HitEnv).1 =
      .ok ⟨200, .allDstData [⟨some "aws", some "us-west-1", .num 45⟩]⟩ ∧
    (getAllInterRegionalLatenciesFromSourceRegion (some c1Params) c1MissEnv).1 =
      .ok ⟨200, .allDstData [⟨some "aws", some "aws", .num 45⟩]⟩ := by
  constructor <;> rfl

/-- The request of C2: a valid source and one named candidate (≤ 5, so the
cache is skipped). -/
def c2Params : BestParams := ⟨some "aws", some "us-west-2", some ["aws@us-west-1"]⟩

/-- Environment of C2: the `batchGet` succeeds with zero rows (no row
qualifies). -/
def c2Env : BestEnv := ⟨.found none, 0, .resp (some []), []⟩

/-- C2 (refuted as stated — code bug): when no row qualifies, the routed
Best Destination handler does **not** return an HTTP 500 response: it
unconditionally evaluates `result.split('@')` while `result` is still null
and throws a `TypeError` (its own `'no result'` 500 branch is unreachable).
The older `api.js` copy of the same operation — which builds the body only
after checking `result` — returns the intended 500. -/
theorem getBestDst_noResult_claim :
    getBestDestinationRegionFromSourceRegion (some c2Params) c2Env =
      (.crash, [.storeBatchGet]) ∧
    getBestDestinationRegionFromSourceRegionApi (some c2Params) c2Env =
      (.ok ⟨500, .textServerError⟩, [.storeBatchGet]) := by
  constructor <;> rfl

/-- The request of C3: a valid source pair, a valid destination provider,
and a destination region that is not in the catalog. -/
def c3Params : PointParams := ⟨some "aws", some "us-west-2", some "aws", some "no-such-region"⟩

/-- C3 (refuted as stated — code bug): the older `api.js` copy of Point
Latency validates the destination with `validateProvider(dstProvider,
dstRegion)` — the region argument is silently ignored — so an out-of-catalog
destination region passes validation and a store `get` is issued; the routed
copy (`api/getLatency.js`) correctly rejects the same request with 400 and
no I/O, and all routed handlers short-circuit to 400 with no store or cache
I/O whenever their validation guard fails. -/
theorem validation_before_io_claim :
    interRegionalLatencyApi (some c3Params) (.found none) = (.crash, [.storeGet]) ∧
    interRegionalLatency (some c3Params) (.found none) = (.ok ⟨400, .badRequest⟩, []) ∧
    (∀ (p : PointParams) (store : StoreGetResp), pointGuardOk p = false →
      interRegionalLatency (some p) store = (.ok ⟨400, .badRequest⟩, [])) ∧
    (∀ (p : BestParams) (env : BestEnv), bestGuardOk p = false →
      getBestDestinationRegionFromSourceRegion (some p) env =
        (.ok ⟨400, .badRequest⟩, [])) ∧
    (∀ (p : AllDstParams) (env : AllDstEnv), allDstGuardOk p = false →
      getAllInterRegionalLatenciesFromSourceRegion (some p) env =
        (.ok ⟨400, .badRequest⟩, [])) := by
  refine ⟨by rfl, by rfl, fun p store h => ?_, fun p env h => ?_, fun p env h => ?_⟩
  · simp [interRegionalLatency, h]
  · simp [getBestDestinationRegionFromSourceRegion, h]
  · simp [getAllInterRegionalLatenciesFromSourceRegion, h]

/-- Witness for C3's fail-fast conjuncts: a request with a missing
`srcProvider` is rejected with no I/O even under a store that would error. -/
theorem validation_before_io_claim_witness :
    interRegionalLatency (some ⟨none, some "us-west-2", some "aws", some "ap-east-1"⟩) .err =
      (.ok ⟨400, .badRequest⟩, []) :=
  validation_before_io_claim.2.2.1 ⟨none, some "us-west-2", some "aws", some "ap-east-1"⟩
    .err (by decide)

/-- C4: the output of the routed All Destinations and Best Destination
handlers never contains the source region itself: every minimum-selection
pass of the routed Best Destination handler carries the self-pair filter
(starting from a non-source best it can never return the source), and both
output mappings of the routed All Destinations handler are the self-pair
filter followed by a shape map. The older `api.js` Best Destination copy
lacks the filter in its cache-hit pass, but its check-against-all case
throws on its uninitialized-array region expansion before any I/O, so it
never produces output at all. -/
theorem selfPair_excluded_claim :
    (∀ (src : String) (m : Rat) (rows : List Row),
      (minPassFiltered src (m, none) rows).2 ≠ some src) ∧
    (∀ (src : String) (rows : List Row),
      allDstCacheShape src rows =
        (rows.filter (fun o => decide (o.dstRegion ≠ src))).map
          (fun o => ⟨jsIdx (splitChar '@' o.dstRegion) 0,
            jsIdx (splitChar '@' o.dstRegion) 1, o.ping⟩)) ∧
    (∀ (src : String) (rows : List Row),
      allDstStoreShape src rows =
        (rows.filter (fun o => decide (o.dstRegion ≠ src))).map
          (fun o => ⟨jsIdx (splitChar '@' o.dstRegion) 0,
            jsIdx (splitChar '@' o.dstRegion) 0, o.ping⟩)) ∧
    (∀ env : BestEnv,
      getBestDestinationRegionFromSourceRegionApi
        (some ⟨some "aws", some "us-west-2", none⟩) env = (.crash, [])) := by
  refine ⟨fun src m rows => minPassFiltered_ne_src src rows m none (by simp),
    fun src rows => filterMap_guard_shape _ _ rows,
    fun src rows => filterMap_guard_shape _ _ rows,
    fun env => rfl⟩

/-- Witness for C4: the pass over a dataset containing the self-pair (with
the smallest ping) does not return the source. -/
theorem selfPair_excluded_claim_witness :
    (minPassFiltered "aws@us-west-2" (jsMaxValue, none)
      [⟨"aws@us-west-2", .num 1⟩, ⟨"aws@us-west-1", .num 45⟩]).2 ≠ some "aws@us-west-2" :=
  selfPair_excluded_claim.1 "aws@us-west-2" jsMaxValue _

/-- The request of C8: a valid ordered pair of catalog regions. -/
def c8Params : PointParams := ⟨some "aws", some "us-west-2", some "aws", some "ap-east-1"⟩

/-- C8 counterexample: when no row exists for a valid pair, Point
Latency does not yield any `NotFound` result (nor any HTTP response):
`response.Item.ping` dereferences the absent `Item` and the handler throws. -/
theorem pointLatency_missing_row_counterexample :
    interRegionalLatency (some c8Params) (.found none) = (.crash, [.storeGet]) := by
  rfl

/-- C8 (amended): for every valid pair, Point Latency performs a direct
point lookup and returns the stored `ping` value unchanged (no rounding); a
transport error yields HTTP 500; and when no row exists the handler throws
an unhandled `TypeError` instead of producing a `NotFound` outcome. -/
theorem pointLatency_amended_claim :
    (∀ (p : PointParams) (ping : PingV), pointGuardOk p = true →
      interRegionalLatency (some p) (.found (some ping)) =
        (.ok ⟨200, .pingObj ping⟩, [.storeGet])) ∧
    (∀ p : PointParams, pointGuardOk p = true →
      interRegionalLatency (some p) .err = (.ok ⟨500, .serverError⟩, [.storeGet])) ∧
    (∀ p : PointParams, pointGuardOk p = true →
      interRegionalLatency (some p) (.found none) = (.crash, [.storeGet])) := by
  refine ⟨fun p ping h => ?_, fun p h => ?_, fun p h => ?_⟩ <;>
    simp [interRegionalLatency, h]

/-- Witness for C8's amended claim: a stored full-precision ping is returned
bit-for-bit. -/
theorem pointLatency_amended_claim_witness :
    interRegionalLatency (some c8Params) (.found (some (.num (mkRat 1439680204 10000000)))) =
      (.ok ⟨200, .pingObj (.num (mkRat 1439680204 10000000))⟩, [.storeGet]) :=
  pointLatency_amended_claim.1 c8Params (.num (mkRat 1439680204 10000000)) (by decide)

end CloudHighwayOne
